import Mathlib

/-!
Verification development for `scripts/decode_oracle_request.py`: a CLI tool
that fetches an on-chain Oracle request object (by id or "latest"), decodes
embedded hex payloads and nested JSON, and prints a multi-section report.

The Python program is shallowly embedded:
* `Json` models Python values obtained from `json.loads` (JSON null is
  Python `None`, objects are insertion-ordered dicts, numbers keep their
  source lexeme);
* `json_loads` models the default behaviour of Python's `json.loads`:
  the strict JSON grammar (object/array/string/number/true/false/null)
  plus the CPython default extensions — the `NaN`/`Infinity`/`-Infinity`
  constants (kept as the float lexemes `nan`/`inf`/`-inf`, which is how
  `str()` prints them) and lone-surrogate `\uXXXX` escapes (accepted, with
  the unrepresentable lone surrogate stood in by U+FFFD);
* `PyM` is a print-and-abort monad: a Python function body is a value of
  `PyM α` recording exactly the `print` calls made so far together with a
  normal result, a raised exception, or a `sys.exit`.
-/

set_option maxRecDepth 100000

namespace DecodeOracle

/-- Model of a parsed Python JSON value. `null` is Python `None`.
`num` keeps the source lexeme of the number: Python converts the lexeme to
`int`/`float`, and for the simple decimal literals handled by this program
`str()` of that value reproduces the lexeme. `obj` is an insertion-ordered
association list with unique keys, matching a Python dict built by the
parser. -/
inductive Json where
  | null : Json
  | bool : Bool → Json
  | num : String → Json
  | str : String → Json
  | arr : List Json → Json
  | obj : List (String × Json) → Json

mutual

/-- Structural equality of parsed values, modelling Python `==` on the
values this program compares (the Python coercions `1 == True` and
`1 == 1.0` are outside the model; the program only ever compares strings). -/
def jeq : Json → Json → Bool
  | .null, .null => true
  | .bool a, .bool b => a == b
  | .num a, .num b => a == b
  | .str a, .str b => a == b
  | .arr xs, .arr ys => jeqArr xs ys
  | .obj xs, .obj ys => jeqObj xs ys
  | _, _ => false

/-- Elementwise equality of array models. -/
def jeqArr : List Json → List Json → Bool
  | [], [] => true
  | x :: xs, y :: ys => jeq x y && jeqArr xs ys
  | _, _ => false

/-- Entrywise equality of dict models. -/
def jeqObj : List (String × Json) → List (String × Json) → Bool
  | [], [] => true
  | (k1, v1) :: xs, (k2, v2) :: ys => k1 == k2 && jeq v1 v2 && jeqObj xs ys
  | _, _ => false

end

instance : BEq Json := ⟨jeq⟩

/-- Lookup in a dict model (first match; the parser keeps keys unique). -/
def objGet? (es : List (String × Json)) (k : String) : Option Json :=
  (es.find? (fun p => p.1 = k)).map (fun p => p.2)

/-- Insert into a dict model the way CPython dict assignment does: replace
the value in place when the key exists, append otherwise. -/
def objInsert (es : List (String × Json)) (k : String) (v : Json) : List (String × Json) :=
  match es with
  | [] => [(k, v)]
  | (k0, v0) :: rest =>
    if k0 = k then (k0, v) :: rest else (k0, v0) :: objInsert rest k v

/-- JSON whitespace as accepted by Python's `json.loads`. -/
def jsonWs (c : Char) : Bool :=
  c = ' ' || c = '\t' || c = '\n' || c = '\r'

/-- Skip JSON whitespace. -/
def skipWs : List Char → List Char
  | [] => []
  | c :: cs => if jsonWs c then skipWs cs else c :: cs

/-- Value of a hexadecimal digit (both cases), as in `int(c, 16)`. -/
def hexVal (c : Char) : Option Nat :=
  if '0' ≤ c ∧ c ≤ '9' then some (c.toNat - 48)
  else if 'a' ≤ c ∧ c ≤ 'f' then some (c.toNat - 87)
  else if 'A' ≤ c ∧ c ≤ 'F' then some (c.toNat - 55)
  else none

/-- Parse exactly four hex digits (the `\uXXXX` escape payload). -/
def parseHex4 : List Char → Option (Nat × List Char)
  | a :: b :: c :: d :: rest => do
    let va ← hexVal a
    let vb ← hexVal b
    let vc ← hexVal c
    let vd ← hexVal d
    some (va * 4096 + vb * 256 + vc * 16 + vd, rest)
  | _ => none

/-- Parse the body of a JSON string literal (opening quote already
consumed), returning the decoded characters and the input after the closing
quote.  Escapes are as in Python's strict `json.loads`, including the
CPython surrogate handling: a `\uXXXX` high surrogate immediately followed
by a `\uYYYY` low surrogate combines into one astral character, while any
lone surrogate escape is accepted (CPython materialises the lone surrogate
in the resulting `str`; such a character does not exist in Lean strings,
so the model stands it in with U+FFFD — parse success and failure match
CPython exactly, only that one character of content differs). Unescaped
control characters are rejected, as in strict mode. -/
def parseJStr : Nat → List Char → Option (List Char × List Char)
  | 0, _ => none
  | _ + 1, [] => none
  | fuel + 1, c :: rest =>
    if c = '"' then some ([], rest)
    else if c = '\\' then
      match rest with
      | [] => none
      | e :: rest2 =>
        if e = '"' then (fun p => (('"' : Char) :: p.1, p.2)) <$> parseJStr fuel rest2
        else if e = '\\' then (fun p => (('\\' : Char) :: p.1, p.2)) <$> parseJStr fuel rest2
        else if e = '/' then (fun p => (('/' : Char) :: p.1, p.2)) <$> parseJStr fuel rest2
        else if e = 'b' then (fun p => (('\x08' : Char) :: p.1, p.2)) <$> parseJStr fuel rest2
        else if e = 'f' then (fun p => (('\x0c' : Char) :: p.1, p.2)) <$> parseJStr fuel rest2
        else if e = 'n' then (fun p => (('\n' : Char) :: p.1, p.2)) <$> parseJStr fuel rest2
        else if e = 'r' then (fun p => (('\r' : Char) :: p.1, p.2)) <$> parseJStr fuel rest2
        else if e = 't' then (fun p => (('\t' : Char) :: p.1, p.2)) <$> parseJStr fuel rest2
        else if e = 'u' then
          match parseHex4 rest2 with
          | none => none
          | some (n, rest3) =>
            if n < 0xD800 ∨ 0xDFFF < n then
              (fun p => (Char.ofNat n :: p.1, p.2)) <$> parseJStr fuel rest3
            else if n < 0xDC00 then
              match rest3 with
              | '\\' :: 'u' :: rest4 =>
                match parseHex4 rest4 with
                | some (m, rest5) =>
                  if 0xDC00 ≤ m ∧ m ≤ 0xDFFF then
                    (fun p =>
                      (Char.ofNat (0x10000 + (n - 0xD800) * 1024 + (m - 0xDC00)) :: p.1, p.2)) <$>
                      parseJStr fuel rest5
                  else (fun p => (('�' : Char) :: p.1, p.2)) <$> parseJStr fuel rest3
                | none => (fun p => (('�' : Char) :: p.1, p.2)) <$> parseJStr fuel rest3
              | _ => (fun p => (('�' : Char) :: p.1, p.2)) <$> parseJStr fuel rest3
            else (fun p => (('�' : Char) :: p.1, p.2)) <$> parseJStr fuel rest3
        else none
    else if c.toNat < 0x20 then none
    else (fun p => (c :: p.1, p.2)) <$> parseJStr fuel rest

/-- Take a maximal run of decimal digits. -/
def takeDigits : List Char → List Char × List Char
  | [] => ([], [])
  | c :: cs =>
    if c.isDigit then
      let p := takeDigits cs
      (c :: p.1, p.2)
    else ([], c :: cs)

/-- Parse a JSON number lexeme (strict grammar: optional minus, `0` or a
nonzero-led digit run, optional fraction, optional exponent), returning the
lexeme characters and the rest of the input. The lexeme is maximal-valid:
an incomplete fraction or exponent tail is left unconsumed and then rejected
by the surrounding grammar, which is where CPython's scanner errors out
too. -/
def parseNum (s : List Char) : Option (List Char × List Char) :=
  let (sign, s1) :=
    match s with
    | '-' :: rest => ([('-' : Char)], rest)
    | _ => ([], s)
  match s1 with
  | [] => none
  | c :: cs =>
    if ¬ c.isDigit then none
    else
      let (intPart, s2) :=
        if c = '0' then ([c], cs)
        else
          let p := takeDigits cs
          (c :: p.1, p.2)
      let (fracPart, s3) :=
        match s2 with
        | '.' :: d :: ds =>
          if d.isDigit then
            let p := takeDigits ds
            (('.' : Char) :: d :: p.1, p.2)
          else ([], s2)
        | _ => ([], s2)
      let (expPart, s4) :=
        match s3 with
        | e :: p :: d :: ds =>
          if (e = 'e' ∨ e = 'E') ∧ (p = '+' ∨ p = '-') ∧ d.isDigit then
            let q := takeDigits ds
            (e :: p :: d :: q.1, q.2)
          else if (e = 'e' ∨ e = 'E') ∧ p.isDigit then
            let q := takeDigits (d :: ds)
            (e :: p :: q.1, q.2)
          else ([], s3)
        | [e, d] =>
          if (e = 'e' ∨ e = 'E') ∧ d.isDigit then ([e, d], []) else ([], s3)
        | _ => ([], s3)
      some (sign ++ intPart ++ fracPart ++ expPart, s4)

mutual

/-- Parse one JSON value (fuel-based recursion; the driver supplies ample
fuel). Models the value grammar of Python's `json.loads`. -/
def parseVal : Nat → List Char → Option (Json × List Char)
  | 0, _ => none
  | fuel + 1, s =>
    match skipWs s with
    | [] => none
    | c :: rest =>
      if c = '"' then
        (fun p => (Json.str (List.asString p.1), p.2)) <$> parseJStr (rest.length + 1) rest
      else if c = '[' then
        match skipWs rest with
        | ']' :: r2 => some (Json.arr [], r2)
        | r1 => (fun p => (Json.arr p.1, p.2)) <$> parseElems fuel r1
      else if c = '{' then
        match skipWs rest with
        | '}' :: r2 => some (Json.obj [], r2)
        | r1 => (fun p => (Json.obj p.1, p.2)) <$> parseMembers fuel [] r1
      else
        match c :: rest with
        | 't' :: 'r' :: 'u' :: 'e' :: r => some (Json.bool true, r)
        | 'f' :: 'a' :: 'l' :: 's' :: 'e' :: r => some (Json.bool false, r)
        | 'n' :: 'u' :: 'l' :: 'l' :: r => some (Json.null, r)
        | 'N' :: 'a' :: 'N' :: r => some (Json.num "nan", r)
        | 'I' :: 'n' :: 'f' :: 'i' :: 'n' :: 'i' :: 't' :: 'y' :: r => some (Json.num "inf", r)
        | '-' :: 'I' :: 'n' :: 'f' :: 'i' :: 'n' :: 'i' :: 't' :: 'y' :: r =>
          some (Json.num "-inf", r)
        | s' => (fun p => (Json.num (List.asString p.1), p.2)) <$> parseNum s'

/-- Parse a nonempty comma-separated list of array elements up to `]`. -/
def parseElems : Nat → List Char → Option (List Json × List Char)
  | 0, _ => none
  | fuel + 1, s => do
    let (v, r1) ← parseVal fuel s
    match skipWs r1 with
    | ',' :: r2 => (fun p => (v :: p.1, p.2)) <$> parseElems fuel r2
    | ']' :: r2 => some ([v], r2)
    | _ => none

/-- Parse a nonempty comma-separated list of object members up to `}`,
accumulating into a dict with CPython's duplicate-key semantics (later
value wins, position of first insertion kept). -/
def parseMembers : Nat → List (String × Json) → List Char → Option (List (String × Json) × List Char)
  | 0, _, _ => none
  | fuel + 1, acc, s =>
    match skipWs s with
    | '"' :: r0 => do
      let (kcs, r1) ← parseJStr (r0.length + 1) r0
      match skipWs r1 with
      | ':' :: r2 => do
        let (v, r3) ← parseVal fuel r2
        let acc' := objInsert acc (List.asString kcs) v
        match skipWs r3 with
        | ',' :: r4 => parseMembers fuel acc' r4
        | '}' :: r4 => some (acc', r4)
        | _ => none
      | _ => none
    | _ => none

end

/-- Model of Python's `json.loads` on a text document: parse one value and
require only whitespace after it. `none` models a raised
`json.JSONDecodeError`. -/
def json_loads (s : String) : Option Json :=
  match parseVal (2 * s.length + 8) s.toList with
  | some (v, rest) => if skipWs rest = [] then some v else none
  | none => none

/-- Lowercase hex digit character for `n < 16`. -/
def hexDigitChar (n : Nat) : Char :=
  if n < 10 then Char.ofNat (48 + n) else Char.ofNat (87 + n)

/-- A `\uXXXX` escape for a code unit `n < 0x10000`, lowercase hex as
emitted by CPython's `json.dumps`. -/
def uEsc (n : Nat) : List Char :=
  ['\\', 'u', hexDigitChar (n / 4096 % 16), hexDigitChar (n / 256 % 16),
   hexDigitChar (n / 16 % 16), hexDigitChar (n % 16)]

/-- Escape one character the way `json.dumps` (default `ensure_ascii=True`)
does: short escapes for the JSON specials, `\uXXXX` for other control and
all non-ASCII characters, surrogate pairs for astral characters. -/
def jsonEscapeChar (c : Char) : List Char :=
  if c = '"' then ['\\', '"']
  else if c = '\\' then ['\\', '\\']
  else if c = '\n' then ['\\', 'n']
  else if c = '\t' then ['\\', 't']
  else if c = '\r' then ['\\', 'r']
  else if c = '\x08' then ['\\', 'b']
  else if c = '\x0c' then ['\\', 'f']
  else if c.toNat < 0x20 then uEsc c.toNat
  else if c.toNat < 0x7F then [c]
  else if c.toNat < 0x10000 then uEsc c.toNat
  else
    uEsc (0xD800 + (c.toNat - 0x10000) / 1024) ++ uEsc (0xDC00 + (c.toNat - 0x10000) % 1024)

/-- A JSON string literal for `s`, as `json.dumps` renders strings. -/
def quoteJson (s : String) : String :=
  "\"" ++ List.asString (s.toList.flatMap jsonEscapeChar) ++ "\""

/-- `n` spaces (the indentation prefix `json.dumps(..., indent=2)` uses). -/
def sp (n : Nat) : String :=
  List.asString (List.replicate n ' ')

mutual

/-- Model of `json.dumps(v, indent=2)` at indentation `lvl`: containers
spread one item per line, item separator `,`, key separator `: `, empty
containers rendered inline. -/
def json_dumps_val : Json → Nat → String
  | .null, _ => "null"
  | .bool true, _ => "true"
  | .bool false, _ => "false"
  | .num "nan", _ => "NaN"
  | .num "inf", _ => "Infinity"
  | .num "-inf", _ => "-Infinity"
  | .num lex, _ => lex
  | .str s, _ => quoteJson s
  | .arr [], _ => "[]"
  | .arr (x :: xs), lvl =>
    "[\n" ++ sp (lvl + 2) ++ json_dumps_val x (lvl + 2) ++
      json_dumps_items xs (lvl + 2) ++ "\n" ++ sp lvl ++ "]"
  | .obj [], _ => "\x7b\x7d"
  | .obj (e :: es), lvl =>
    "\x7b\n" ++ sp (lvl + 2) ++ quoteJson e.1 ++ ": " ++ json_dumps_val e.2 (lvl + 2) ++
      json_dumps_entries es (lvl + 2) ++ "\n" ++ sp lvl ++ "\x7d"

/-- Remaining array items, each preceded by `,\n` and indentation. -/
def json_dumps_items : List Json → Nat → String
  | [], _ => ""
  | x :: xs, lvl => ",\n" ++ sp lvl ++ json_dumps_val x lvl ++ json_dumps_items xs lvl

/-- Remaining object entries, each preceded by `,\n` and indentation. -/
def json_dumps_entries : List (String × Json) → Nat → String
  | [], _ => ""
  | e :: es, lvl =>
    ",\n" ++ sp lvl ++ quoteJson e.1 ++ ": " ++ json_dumps_val e.2 lvl ++
      json_dumps_entries es lvl

end

/-- `json.dumps(v, indent=2)` as called by the program. -/
def json_dumps (j : Json) : String :=
  json_dumps_val j 0

mutual

/-- Model of Python `repr()` on parsed JSON values (used by `str()` on
containers): `None`/`True`/`False`, single-quoted strings (the model keeps
the characters as-is and does not re-escape specials), bracketed
containers. -/
def pyRepr : Json → String
  | .null => "None"
  | .bool true => "True"
  | .bool false => "False"
  | .num lex => lex
  | .str s => "\x27" ++ s ++ "\x27"
  | .arr [] => "[]"
  | .arr (x :: xs) => "[" ++ pyRepr x ++ pyReprItems xs ++ "]"
  | .obj [] => "\x7b\x7d"
  | .obj (e :: es) =>
    "\x7b\x27" ++ e.1 ++ "\x27: " ++ pyRepr e.2 ++ pyReprEntries es ++ "\x7d"

/-- Remaining list items of a `repr`, comma-separated. -/
def pyReprItems : List Json → String
  | [] => ""
  | x :: xs => ", " ++ pyRepr x ++ pyReprItems xs

/-- Remaining dict entries of a `repr`, comma-separated. -/
def pyReprEntries : List (String × Json) → String
  | [] => ""
  | e :: es => ", \x27" ++ e.1 ++ "\x27: " ++ pyRepr e.2 ++ pyReprEntries es

end

/-- Model of Python `str()` as used in the program's f-strings: a string
renders as its own characters, everything else as its `repr`. For `num`
this returns the source lexeme, which agrees with CPython for the simple
decimal literals the program prints. -/
def pyStr : Json → String
  | .str s => s
  | v => pyRepr v

/-- Python type name of a parsed JSON value (for exception messages). A
`num` counts as `int` when its lexeme has no fraction or exponent part;
the special float lexemes `nan`/`inf`/`-inf` are floats. -/
def pyTypeName : Json → String
  | .null => "NoneType"
  | .bool _ => "bool"
  | .num lex =>
    if lex = "nan" ∨ lex = "inf" ∨ lex = "-inf" then "float"
    else if lex.toList.any (fun c => c = '.' || c = 'e' || c = 'E') then "float"
    else "int"
  | .str _ => "str"
  | .arr _ => "list"
  | .obj _ => "dict"

/-- Python truthiness of a parsed JSON value: `None`, `False`, numeric
zero, and empty string/list/dict are falsy. A finite number is zero
exactly when its mantissa has no nonzero digit; `nan` and the infinities
are truthy. -/
def truthy : Json → Bool
  | .null => false
  | .bool b => b
  | .num lex =>
    if lex = "nan" ∨ lex = "inf" ∨ lex = "-inf" then true
    else
      (lex.toList.takeWhile (fun c => c ≠ 'e' ∧ c ≠ 'E')).any
        (fun c => c.isDigit && c ≠ '0')
  | .str s => !s.toList.isEmpty
  | .arr xs => !xs.isEmpty
  | .obj es => !es.isEmpty

/-!  Hex and UTF-8 codecs (`decode_hex` and the model of `bytes.fromhex`
and `bytes.decode("utf-8")`). Bytes are `Nat` values below 256. -/

/-- Model of `bytes.fromhex`: two hex digits per byte, ASCII spaces
ignored between bytes (and at the ends), anything else rejected. `none`
models a raised `ValueError`. -/
def fromhex : List Char → Option (List Nat)
  | [] => some []
  | ' ' :: rest => fromhex rest
  | c1 :: c2 :: rest => do
    let h ← hexVal c1
    let l ← hexVal c2
    (fun bs => (h * 16 + l) :: bs) <$> fromhex rest
  | [_] => none

/-- UTF-8 bytes of one unicode scalar value, written with `/`, `%`, `*`,
`+` (numerically identical to the usual shift-and-mask form). -/
def utf8EncodeChar (n : Nat) : List Nat :=
  if n < 0x80 then [n]
  else if n < 0x800 then [0xC0 + n / 64, 0x80 + n % 64]
  else if n < 0x10000 then [0xE0 + n / 4096, 0x80 + n / 64 % 64, 0x80 + n % 64]
  else [0xF0 + n / 262144, 0x80 + n / 4096 % 64, 0x80 + n / 64 % 64, 0x80 + n % 64]

/-- UTF-8 encoding of a text, as `str.encode("utf-8")` produces. -/
def utf8Encode (s : String) : List Nat :=
  s.toList.flatMap (fun c => utf8EncodeChar c.toNat)

mutual

/-- Strict UTF-8 decoder, as `bytes.decode("utf-8")`: rejects stray
continuation bytes, overlong forms, surrogates and values above
`0x10FFFF`. `none` models a raised `UnicodeDecodeError`. -/
def utf8DecodeList : List Nat → Option (List Char)
  | [] => some []
  | b :: bs =>
    if b < 0x80 then
      (fun cs => Char.ofNat b :: cs) <$> utf8DecodeList bs
    else if b < 0xC2 then none
    else if b < 0xE0 then utf8Cont2 b bs
    else if b < 0xF0 then utf8Cont3 b bs
    else if b < 0xF5 then utf8Cont4 b bs
    else none

/-- Continuation byte of a two-byte sequence led by `b ∈ [0xC2, 0xDF]`. -/
def utf8Cont2 (b : Nat) : List Nat → Option (List Char)
  | b2 :: bs2 =>
    if 0x80 ≤ b2 ∧ b2 < 0xC0 then
      (fun cs => Char.ofNat ((b - 0xC0) * 64 + (b2 - 0x80)) :: cs) <$> utf8DecodeList bs2
    else none
  | [] => none

/-- Continuation bytes of a three-byte sequence led by `b ∈ [0xE0, 0xEF]`;
the range of the first continuation byte excludes overlong forms (lead
`0xE0`) and surrogates (lead `0xED`). -/
def utf8Cont3 (b : Nat) : List Nat → Option (List Char)
  | b2 :: b3 :: bs3 =>
    if (if b = 0xE0 then 0xA0 else 0x80) ≤ b2 ∧
        b2 < (if b = 0xED then 0xA0 else 0xC0) ∧ 0x80 ≤ b3 ∧ b3 < 0xC0 then
      (fun cs =>
        Char.ofNat ((b - 0xE0) * 4096 + (b2 - 0x80) * 64 + (b3 - 0x80)) :: cs) <$>
        utf8DecodeList bs3
    else none
  | _ => none

/-- Continuation bytes of a four-byte sequence led by `b ∈ [0xF0, 0xF4]`;
the range of the first continuation byte excludes overlong forms (lead
`0xF0`) and values above `0x10FFFF` (lead `0xF4`). -/
def utf8Cont4 (b : Nat) : List Nat → Option (List Char)
  | b2 :: b3 :: b4 :: bs4 =>
    if (if b = 0xF0 then 0x90 else 0x80) ≤ b2 ∧
        b2 < (if b = 0xF4 then 0x90 else 0xC0) ∧
        0x80 ≤ b3 ∧ b3 < 0xC0 ∧ 0x80 ≤ b4 ∧ b4 < 0xC0 then
      (fun cs =>
        Char.ofNat ((b - 0xF0) * 262144 + (b2 - 0x80) * 4096 +
          (b3 - 0x80) * 64 + (b4 - 0x80)) :: cs) <$> utf8DecodeList bs4
    else none
  | _ => none

end

/-- Hexadecimal encoding of a byte list, two lowercase digits per byte
(as `bytes.hex()` would print them). -/
def bytesToHex (bs : List Nat) : String :=
  List.asString (bs.flatMap (fun b => [hexDigitChar (b / 16), hexDigitChar (b % 16)]))

/-- The characters `decode_hex` feeds to `bytes.fromhex`: the input after
stripping an optional `0x` prefix (`hex_string.startswith('0x')` /
`hex_string[2:]`). -/
def strippedHex (s : String) : List Char :=
  if s.toList.take 2 = ['0', 'x'] then s.toList.drop 2 else s.toList

/-- `decode_hex` from the source: strip an optional `0x` prefix, then
`bytes.fromhex(...).decode("utf-8")`; any failure inside the `try` yields
the fixed placeholder. -/
def decode_hex (hex_string : String) : String :=
  match fromhex (strippedHex hex_string) with
  | none => "[Unable to decode hex]"
  | some bs =>
    match utf8DecodeList bs with
    | none => "[Unable to decode hex]"
    | some cs => List.asString cs

/-!  The path extractor. The Python function returns `None` both for a
missing path and for a found JSON `null`, so the model returns `Json`
with `Json.null` standing for Python `None`. -/

/-- The accumulator loop of `Str.split(sep)` for a one-character
separator: Python splitting never drops fields, so `"" → [""]` and
adjacent separators produce empty fields. -/
def splitChAux (sep : Char) : List Char → List Char → List String
  | acc, [] => [List.asString acc.reverse]
  | acc, c :: rest =>
    if c = sep then List.asString acc.reverse :: splitChAux sep [] rest
    else splitChAux sep (c :: acc) rest

/-- Model of Python `s.split('.')` as used on the dotted path. -/
def splitCh (sep : Char) (s : String) : List String :=
  splitChAux sep [] s.toList

/-- The loop of `extract_nested_value` over the split path: descend while
the current value is a dict containing the key, else `None`. -/
def walkPath : Json → List String → Json
  | cur, [] => cur
  | cur, k :: ks =>
    match cur with
    | .obj es =>
      match objGet? es k with
      | some v => walkPath v ks
      | none => .null
    | _ => .null

/-- `extract_nested_value` from the source: split the dotted path and walk
the structure; absence at any segment gives `None` (here `Json.null`). -/
def extract_nested_value (data : Json) (path : String) : Json :=
  walkPath data (splitCh '.' path)

/-!  A small runtime layer: Python exceptions, `print`, and `sys.exit`. -/

/-- The exception classes the program distinguishes in `except` clauses. -/
inductive ExnKind where
  | keyError
  | indexError
  | typeError
  | attributeError
  | valueError
  | overflowError
  | jsonDecodeError
deriving DecidableEq

/-- A raised Python exception: its class and its `str()` text. -/
structure Exn where
  kind : ExnKind
  msg : String

/-- How a Python function body can stop early: `sys.exit(code)` or an
uncaught exception. -/
inductive PyAbort where
  | exit (code : Nat)
  | exn (e : Exn)

/-- A Python computation: threads the list of `print`ed lines and either
returns normally or aborts. -/
def PyM (α : Type) : Type :=
  List String → List String × Except PyAbort α

instance : Monad PyM where
  pure a := fun out => (out, .ok a)
  bind m f := fun out =>
    match m out with
    | (o, .ok a) => f a o
    | (o, .error e) => (o, .error e)

/-- `print(s)`: one output line. -/
def pr (s : String) : PyM Unit :=
  fun out => (out ++ [s], .ok ())

/-- Raise an exception. -/
def raiseExn (e : Exn) : PyM α :=
  fun out => (out, .error (.exn e))

/-- `sys.exit(n)` (a `SystemExit`, which `except Exception` does not
catch). -/
def sysExit (n : Nat) : PyM α :=
  fun out => (out, .error (.exit n))

/-- Run a fallible pure step inside `PyM`, raising on error. -/
def liftE : Except Exn α → PyM α
  | .ok a => pure a
  | .error e => raiseExn e

/-- `try ... except ...`: run `m`; if it raised an exception whose class
satisfies `sel`, run the handler on it. `sys.exit` passes through. -/
def pyTry (sel : ExnKind → Bool) (m : PyM α) (handler : Exn → PyM α) : PyM α :=
  fun out =>
    match m out with
    | (o, .error (.exn e)) => if sel e.kind then handler e o else (o, .error (.exn e))
    | r => r

/-!  Python operations on parsed values, as the program applies them. -/

/-- Does `hay` contain `needle` as a contiguous run (Python `in` on
strings)? -/
def hasSub (needle : List Char) : List Char → Bool
  | [] => needle.isEmpty
  | c :: t => (c :: t).take needle.length == needle || hasSub needle t

/-- `k in v` for a string `k`: dict key test, list membership, substring
test on strings; iteration over other values raises `TypeError`. -/
def pyIn (k : String) (v : Json) : Except Exn Bool :=
  match v with
  | .obj es => .ok (es.any (fun p => p.1 = k))
  | .arr xs => .ok (xs.any (fun x => jeq x (.str k)))
  | .str s => .ok (hasSub k.toList s.toList)
  | other =>
    .error ⟨.typeError,
      "argument of type \x27" ++ pyTypeName other ++ "\x27 is not iterable"⟩

/-- `v[k]` for a string key `k`. -/
def pySubscript (v : Json) (k : String) : Except Exn Json :=
  match v with
  | .obj es =>
    match objGet? es k with
    | some w => .ok w
    | none => .error ⟨.keyError, "\x27" ++ k ++ "\x27"⟩
  | .arr _ => .error ⟨.typeError, "list indices must be integers or slices, not str"⟩
  | .str _ => .error ⟨.typeError, "string indices must be integers"⟩
  | other =>
    .error ⟨.typeError, "\x27" ++ pyTypeName other ++ "\x27 object is not subscriptable"⟩

/-- `v[i]` for an integer index (the program only uses `[0]`). -/
def pyIndex (v : Json) (i : Nat) : Except Exn Json :=
  match v with
  | .arr xs =>
    match xs.get? i with
    | some w => .ok w
    | none => .error ⟨.indexError, "list index out of range"⟩
  | .obj _ => .error ⟨.keyError, toString i⟩
  | .str s =>
    match s.toList.get? i with
    | some c => .ok (.str (List.asString [c]))
    | none => .error ⟨.indexError, "string index out of range"⟩
  | other =>
    .error ⟨.typeError, "\x27" ++ pyTypeName other ++ "\x27 object is not subscriptable"⟩

/-- `v.get(k, dflt)`: only dicts have `.get`. -/
def pyGet (v : Json) (k : String) (dflt : Json) : Except Exn Json :=
  match v with
  | .obj es => .ok ((objGet? es k).getD dflt)
  | other =>
    .error ⟨.attributeError,
      "\x27" ++ pyTypeName other ++ "\x27 object has no attribute \x27get\x27"⟩

/-- `str.upper()` (ASCII model, enough for the roles the program prints). -/
def pyUpper (s : String) : String :=
  List.asString (s.toList.map Char.toUpper)

/-- `str.capitalize()`: first character upper-cased, the rest
lower-cased (ASCII model). -/
def pyCapitalize (s : String) : String :=
  match s.toList with
  | [] => ""
  | c :: cs => List.asString (c.toUpper :: cs.map Char.toLower)

/-- Numeric value of a digit run. -/
def digitsVal (cs : List Char) : Nat :=
  cs.foldl (fun a c => a * 10 + (c.toNat - 48)) 0

/-- Python whitespace stripped by `int(str)`. -/
def pySpace (c : Char) : Bool :=
  c = ' ' || c = '\t' || c = '\n' || c = '\r' || c = '\x0b' || c = '\x0c'

/-- `int(s)` on a string: surrounding whitespace allowed, optional sign,
then a nonempty digit run (the underscore-separator extension is outside
the model). -/
def pyIntOfString (s : String) : Except Exn Int :=
  let t := ((s.toList.dropWhile pySpace).reverse.dropWhile pySpace).reverse
  let (neg, ds) :=
    match t with
    | '-' :: r => (true, r)
    | '+' :: r => (false, r)
    | r => (false, r)
  if ds ≠ [] ∧ ds.all Char.isDigit then
    .ok (if neg then -(digitsVal ds : Int) else (digitsVal ds : Int))
  else
    .error ⟨.valueError,
      "invalid literal for int() with base 10: \x27" ++ s ++ "\x27"⟩

/-- Truncation toward zero of a JSON number lexeme, as `int(float)` does
(the model computes the exact decimal value; binary-float rounding of
extreme literals is outside the model and unexercised by the program). -/
def numLexToInt (lex : String) : Int :=
  let (neg, cs) :=
    match lex.toList with
    | '-' :: r => (true, r)
    | r => (false, r)
  let (ip, r1) := takeDigits cs
  let (fp, r2) :=
    match r1 with
    | '.' :: r => takeDigits r
    | _ => ([], r1)
  let (eneg, ed) :=
    match r2 with
    | _ :: '+' :: r => (false, (takeDigits r).1)
    | _ :: '-' :: r => (true, (takeDigits r).1)
    | _ :: r => (false, (takeDigits r).1)
    | [] => (false, [])
  let m := digitsVal (ip ++ fp)
  let ex : Int := (if eneg then -(digitsVal ed : Int) else (digitsVal ed : Int)) - fp.length
  let mag : Nat := if 0 ≤ ex then m * 10 ^ ex.toNat else m / 10 ^ (-ex).toNat
  if neg then -(mag : Int) else (mag : Int)

/-- `int(v)` as applied to a timestamp field. `int()` of the float
specials raises (`ValueError` for NaN, `OverflowError` for the
infinities). -/
def pyInt (v : Json) : Except Exn Int :=
  match v with
  | .str s => pyIntOfString s
  | .num lex =>
    if lex = "nan" then
      .error ⟨.valueError, "cannot convert float NaN to integer"⟩
    else if lex = "inf" ∨ lex = "-inf" then
      .error ⟨.overflowError, "cannot convert float infinity to integer"⟩
    else .ok (numLexToInt lex)
  | .bool b => .ok (if b then 1 else 0)
  | other =>
    .error ⟨.typeError,
      "int() argument must be a string, a bytes-like object or a real number, not \x27" ++
        pyTypeName other ++ "\x27"⟩

/-- Modelled from the spec: the source's `format_timestamp` renders the
millisecond value via `datetime.fromtimestamp(...).strftime(...)`, whose
text depends on the machine's local timezone and so has no pure
counterpart; the model keeps the `int(...)` conversion (and its
exceptions) and an injective stand-in rendering. No claim concerns the
rendered text. -/
def format_timestamp (v : Json) : Except Exn String := do
  let n ← pyInt v
  .ok ("<local-time of " ++ toString n ++ " ms>")

/-- `json.loads(v)` on an arbitrary value: only strings parse; other
arguments raise `TypeError`, unparsable text raises `JSONDecodeError`. -/
def pyJsonLoads (v : Json) : Except Exn Json :=
  match v with
  | .str s =>
    match json_loads s with
    | some j => .ok j
    | none => .error ⟨.jsonDecodeError, "Expecting value: line 1 column 1 (char 0)"⟩
  | other =>
    .error ⟨.typeError,
      "the JSON object must be str, bytes or bytearray, not " ++ pyTypeName other⟩

/-- `decode_hex(v)` applied to an extracted value: the `.startswith` call
raises `AttributeError` for non-strings (outside the function's `try`). -/
def decode_hex_py (v : Json) : Except Exn String :=
  match v with
  | .str s => .ok (decode_hex s)
  | other =>
    .error ⟨.attributeError,
      "\x27" ++ pyTypeName other ++ "\x27 object has no attribute \x27startswith\x27"⟩

/-!  The program's functions. -/

/-- `process_openai_response` from the source: return
`response_json['choices'][0]['message']['content']` when the guarding
chain of `in` tests and subscripts goes through; every failure mode of
the chain (missing key, non-dict step, empty list — whether a `False`
test or an exception swallowed by the bare `except`) yields `None`. -/
def process_openai_response (response_json : Json) : Json :=
  match response_json with
  | .obj es =>
    match objGet? es "choices" with
    | some (.arr (.obj ces :: _)) =>
      match objGet? ces "message" with
      | some (.obj mes) =>
        match objGet? mes "content" with
        | some v => v
        | none => .null
      | _ => .null
    | _ => .null
  | _ => .null

/-- The role tag of one chat message: `role.upper()` for the exact string
`"system"`, `role.capitalize()` otherwise; a non-string role raises
`AttributeError` at the `.capitalize()` call. -/
def formatRole : Json → Except Exn String
  | .str s => .ok (if s = "system" then pyUpper s else pyCapitalize s)
  | other =>
    .error ⟨.attributeError,
      "\x27" ++ pyTypeName other ++ "\x27 object has no attribute \x27capitalize\x27"⟩

/-- The message loop of `process_request_body`: append
`"[ROLE]\ncontent\n\n"` for each message; `.get` on a non-dict message
raises. -/
def renderMessages (msgs : List Json) (acc : String) : Except Exn String :=
  match msgs with
  | [] => .ok acc
  | msg :: rest => do
    let role ← pyGet msg "role" (.str "unknown")
    let content ← pyGet msg "content" (.str "")
    let fr ← formatRole role
    renderMessages rest (acc ++ "[" ++ fr ++ "]\n" ++ pyStr content ++ "\n\n")

/-- The chat-vs-plain dispatch of `process_request_body` on a parsed
body: the OpenAI branch runs when `'messages' in body_json` holds and the
subscripted value is a list; otherwise the body is pretty-printed. Both
the `in` test and the subscript can raise for non-dict bodies. -/
def prbCore (body_json : Json) : Except Exn String := do
  let hasMsgs ← pyIn "messages" body_json
  let chat ←
    if hasMsgs then do
      let msgs ← pySubscript body_json "messages"
      pure (match msgs with | Json.arr items => some items | _ => none)
    else pure none
  match chat with
  | some items => do
    let modelv ← pyGet body_json "model" (.str "Not specified")
    let base := "Model: " ++ pyStr modelv ++ "\n"
    let hasTemp ← pyIn "temperature" body_json
    let base ←
      if hasTemp then do
        let t ← pySubscript body_json "temperature"
        pure (base ++ "Temperature: " ++ pyStr t ++ "\n")
      else pure base
    renderMessages items (base ++ "\n----- Messages -----\n\n")
  | none => pure (json_dumps body_json)

/-- `process_request_body` from the source, on the value extracted from
the params dict: `json.loads` failure on a string returns the 200-character
preview with the truncation notice; any other exception inside the `try`
(including `json.loads` of a non-string) is caught by the generic handler
and rendered as an error line. -/
def process_request_body (body : Json) : String :=
  match body with
  | .str s =>
    match json_loads s with
    | some bj =>
      match prbCore bj with
      | .ok out => out
      | .error e => "Error processing request body: " ++ e.msg
    | none =>
      List.asString (s.toList.take 200) ++ "...\n(Request body truncated for readability)"
  | other =>
    "Error processing request body: the JSON object must be str, bytes or bytearray, not " ++
      pyTypeName other

/-- The `try` body of the response section (everything under
`if response_vec:`), as a computation that the surrounding
`except (KeyError, IndexError)` wraps. -/
def responseSection (response_vec : Json) : PyM Unit := do
  let hasVal ← liftE (pyIn "value" response_vec)
  if hasVal then do
    let v ← liftE (pySubscript response_vec "value")
    match v with
    | .arr (first :: _) =>
      match first with
      | .arr (hx :: _) =>
        if truthy hx then do
          let decoded ← liftE (decode_hex_py hx)
          pr "\nResponse Content:"
          pyTry (fun _ => true)
            (do
              let jsr ← liftE (pyJsonLoads (.str decoded))
              let jr ← liftE (pyJsonLoads jsr)
              pr (json_dumps jr)
              let ai := process_openai_response jr
              if truthy ai then do
                pr "\n===== AI Response Content =====\n"
                pr (pyStr ai)
              else pure ())
            (fun e =>
              if e.kind = .jsonDecodeError then pr decoded
              else do
                pr ("Error processing response: " ++ e.msg)
                pr decoded)
        else pure ()
      | _ => pure ()
    | _ => pure ()
  else pure ()

/-- `analyze_oracle_request` from the source, line by line: basic object
info (direct subscripts), request details, HTTP request, callback, and
response sections, with the source's `try`/`except` structure. -/
def analyze_oracle_request (data : Json) : PyM Unit := do
  let hasData ← liftE (pyIn "data" data)
  let missing ←
    if hasData then do
      let d ← liftE (pySubscript data "data")
      pure (!truthy d)
    else pure true
  if missing then do
    pr "Error: No object data found"
    sysExit 1
  else do
    let d ← liftE (pySubscript data "data")
    let obj ← liftE (pyIndex d 0)
    let decoded_value ← liftE (pyGet obj "decoded_value" (.obj []))
    let value ← liftE (pyGet decoded_value "value" (.obj []))
    pr "\n===== Oracle Request Object =====\n"
    pr ("ID: " ++ pyStr (← liftE (pySubscript obj "id")))
    pr ("Type: " ++ pyStr (← liftE (pySubscript obj "object_type")))
    pr ("Owner: " ++ pyStr (← liftE (pySubscript obj "owner")))
    pr ("Created: " ++ (← liftE (format_timestamp (← liftE (pySubscript obj "created_at")))))
    pr ("Updated: " ++ (← liftE (format_timestamp (← liftE (pySubscript obj "updated_at")))))
    pr "\n===== Request Details =====\n"
    let hasAmount ← liftE (pyIn "amount" value)
    if hasAmount then
      pr ("Amount: " ++ pyStr (← liftE (pySubscript value "amount")) ++ " (Gas)")
    else pure ()
    let hasReq ← liftE (pyIn "request_account" value)
    if hasReq then
      pr ("Requester: " ++ pyStr (← liftE (pySubscript value "request_account")))
    else pure ()
    let hasOracle ← liftE (pyIn "oracle" value)
    if hasOracle then
      pr ("Oracle: " ++ pyStr (← liftE (pySubscript value "oracle")))
    else pure ()
    pr "\n===== HTTP Request =====\n"
    let params := extract_nested_value value "params.value"
    if truthy params then do
      let hasUrl ← liftE (pyIn "url" params)
      if hasUrl then
        pr ("URL: " ++ pyStr (← liftE (pySubscript params "url")))
      else pure ()
      let hasMethod ← liftE (pyIn "method" params)
      if hasMethod then
        pr ("Method: " ++ pyStr (← liftE (pySubscript params "method")))
      else pure ()
      let hasHeaders ← liftE (pyIn "headers" params)
      if hasHeaders then do
        pr "\nHeaders:"
        pyTry (fun _ => true)
          (do
            let hv ← liftE (pySubscript params "headers")
            let hj ← liftE (pyJsonLoads hv)
            if truthy hj then pr (json_dumps hj) else pr "No headers specified")
          (fun _ => do
            pr (pyStr (← liftE (pySubscript params "headers"))))
      else pure ()
      let hasBody ← liftE (pyIn "body" params)
      if hasBody then do
        pr "\nRequest Body:"
        pr (process_request_body (← liftE (pySubscript params "body")))
      else pure ()
    else pure ()
    let notify_vec := extract_nested_value value "notify.value.vec"
    if truthy notify_vec then
      pyTry (fun k => k = .keyError || k = .indexError)
        (do
          let hex_string := extract_nested_value notify_vec "value.0.0"
          if truthy hex_string then do
            pr "\n===== Callback Details =====\n"
            pr ("Callback: " ++ (← liftE (decode_hex_py hex_string)))
          else pure ())
        (fun _ => pure ())
    else pure ()
    pr "\n===== Response =====\n"
    let hasStatus ← liftE (pyIn "response_status" value)
    if hasStatus then
      pr ("Status: " ++ pyStr (← liftE (pySubscript value "response_status")))
    else pure ()
    let response_vec := extract_nested_value value "response.value.vec"
    if truthy response_vec then
      pyTry (fun k => k = .keyError || k = .indexError)
        (responseSection response_vec)
        (fun e => do
          pr ("Error extracting response: " ++ e.msg)
          pr ("Response structure: " ++ pyStr response_vec))
    else
      pr "\nNo response content available"
    pr "\n===== End of Oracle Request Details =====\n"

/-- Outcome of the one `subprocess.run(..., check=True)` call: either a
`CalledProcessError` (with its `str()` text and captured stderr) or a
normal exit with captured stdout. -/
inductive ExtCall where
  | fails (msg stderr : String)
  | succeeds (stdout : String)

/-- `fetch_object_by_id` from the source: announce, run the external
lookup, parse its stdout; process or parse failure prints a diagnostic
and exits with code 1. -/
def fetch_object_by_id (object_id : String) (ext : ExtCall) : PyM Json := do
  pr ("Fetching object data for ID: " ++ object_id ++ "...")
  match ext with
  | .fails msg stderr => do
    pr ("Error executing rooch command: " ++ msg)
    pr ("stderr: " ++ stderr)
    sysExit 1
  | .succeeds out =>
    match json_loads out with
    | some j => pure j
    | none => do
      pr "Error parsing response from rooch command: Expecting value: line 1 column 1 (char 0)"
      sysExit 1

/-- `fetch_latest_request` from the source: like the by-id fetch but for
the "latest, limit 1" query, additionally exiting when `data.get('data')`
is falsy. -/
def fetch_latest_request (ext : ExtCall) : PyM Json := do
  pr "Fetching the latest Oracle request object..."
  match ext with
  | .fails msg stderr => do
    pr ("Error executing rooch command: " ++ msg)
    pr ("stderr: " ++ stderr)
    sysExit 1
  | .succeeds out =>
    match json_loads out with
    | some data => do
      let d ← liftE (pyGet data "data" .null)
      if truthy d then pure data
      else do
        pr "No Oracle request objects found."
        sysExit 1
    | none => do
      pr "Error parsing response from rooch command: Expecting value: line 1 column 1 (char 0)"
      sysExit 1

/-- `main` from the source: dispatch on the optional object id, analyze,
and map any uncaught exception to `Error: ...` plus exit code 1
(`sys.exit` inside the pipeline passes the `except Exception` handler
untouched). Returns the printed lines and the process exit code. -/
def run_prog (object_id : Option String) (ext : ExtCall) : List String × Nat :=
  let m : PyM Unit := do
    let data ←
      match object_id with
      | some oid => fetch_object_by_id oid ext
      | none => fetch_latest_request ext
    analyze_oracle_request data
  match m [] with
  | (out, .ok _) => (out, 0)
  | (out, .error (.exit n)) => (out, n)
  | (out, .error (.exn e)) => (out ++ ["Error: " ++ e.msg], 1)

/-!  Specification-side definitions used by the theorems. -/

/-- Full presence of a dotted path: every segment is a key of a dict at
its level, ending at the stored value. This is the spec's notion of
"every segment present", stated independently of the walker. -/
inductive PresentPath : Json → List String → Json → Prop where
  | nil (d : Json) : PresentPath d [] d
  | cons (es : List (String × Json)) (k : String) (v : Json) (ks : List String) (w : Json) :
      objGet? es k = some v → PresentPath v ks w → PresentPath (.obj es) (k :: ks) w

/-- A chat message the OpenAI branch renders without raising: a dict
whose `role`, when present, is a string. -/
def msgOk : Json → Bool
  | .obj mes =>
    match objGet? mes "role" with
    | some (.str _) => true
    | none => true
    | some _ => false
  | _ => false

/-- The formatted role tag of a well-formed message (`unknown` when the
field is absent). -/
def msgRole : Json → String
  | .obj mes =>
    match objGet? mes "role" with
    | some (.str s) => if s = "system" then pyUpper s else pyCapitalize s
    | _ => pyCapitalize "unknown"
  | _ => ""

/-- The rendered content of a well-formed message (empty default). -/
def msgContent : Json → String
  | .obj mes => pyStr ((objGet? mes "content").getD (.str ""))
  | _ => ""

/-- One rendered message block of the OpenAI branch. -/
def msgBlock (msg : Json) : String :=
  "[" ++ msgRole msg ++ "]\n" ++ msgContent msg ++ "\n\n"

/-- The model/temperature header of the OpenAI branch. -/
def chatHeader (es : List (String × Json)) : String :=
  let base := "Model: " ++ pyStr ((objGet? es "model").getD (.str "Not specified")) ++ "\n"
  match objGet? es "temperature" with
  | some t => base ++ "Temperature: " ++ pyStr t ++ "\n"
  | none => base

/-!  Concrete scenario inputs from the spec's testable properties. -/

/-- Hex payload of the response scenario: the UTF-8 bytes of the JSON
document `"…"` that string-encodes the OpenAI response object once
more. -/
def c1Hex : String :=
  "227b5c2263686f696365735c223a5b7b5c226d6573736167655c223a7b5c22636f6e74656e745c223a5c2268656c6c6f5c227d7d5d7d22"

/-- What `c1Hex` decodes to: the inner OpenAI response JSON text wrapped
once more in JSON-string encoding. -/
def c1Outer : String :=
  "\"\x7b\\\"choices\\\":[\x7b\\\"message\\\":\x7b\\\"content\\\":\\\"hello\\\"\x7d\x7d]\x7d\""

/-- The OpenAI response JSON text itself. -/
def c1Inner : String :=
  "\x7b\"choices\":[\x7b\"message\":\x7b\"content\":\"hello\"\x7d\x7d]\x7d"

/-- stdout of the "latest" query in the response scenario: one object
with all basic fields and `value.response.value.vec.value = [[c1Hex]]`. -/
def c1Stdout : String :=
  "\x7b\"data\":[\x7b\"id\":\"0xobj1\",\"object_type\":\"0xf::oracles::Request\"," ++
  "\"owner\":\"rooch1q\",\"created_at\":\"1700000000000\",\"updated_at\":\"1700000000001\"," ++
  "\"decoded_value\":\x7b\"value\":\x7b\"response_status\":200," ++
  "\"response\":\x7b\"value\":\x7b\"vec\":\x7b\"value\":[[\"" ++ c1Hex ++ "\"]]\x7d\x7d\x7d\x7d\x7d\x7d]\x7d"

/-- stdout of a "latest" query whose one object lacks the `id` field (all
other basic fields present). -/
def c2Stdout : String :=
  "\x7b\"data\":[\x7b\"object_type\":\"T\",\"owner\":\"o\",\"created_at\":\"0\",\"updated_at\":\"0\"\x7d]\x7d"

/-- A fetched structure whose one object carries the five basic fields
(identifier, type, owner and the two timestamps) and nothing else. -/
def basicData (idv tyv ownv : Json) : Json :=
  .obj [("data", .arr [.obj
    [("id", idv), ("object_type", tyv), ("owner", ownv),
     ("created_at", .str "0"), ("updated_at", .str "0")]])]

/-- The chat-scenario request body from the spec. -/
def c4Body : String :=
  "\x7b\"model\":\"gpt-4\",\"temperature\":0.7,\"messages\":[\x7b\"role\":\"system\",\"content\":\"be nice\"\x7d]\x7d"

/-- Concatenation of rendered blocks. -/
def strConcat : List String → String
  | [] => ""
  | s :: rest => s ++ strConcat rest

/-- The parsed single message of the chat scenario. -/
def c4Msg : Json := .obj [("role", .str "system"), ("content", .str "be nice")]

/-- The parsed entries of the chat-scenario body. -/
def c4Es : List (String × Json) :=
  [("model", .str "gpt-4"), ("temperature", .num "0.7"), ("messages", .arr [c4Msg])]

/-!  Theorems. First, helper lemmas for the hex/UTF-8 round trip. -/

theorem char_toNat_valid (c : Char) :
    c.toNat < 0xD800 ∨ (0xDFFF < c.toNat ∧ c.toNat < 0x110000) := by
  rcases c.valid with h | ⟨h1, h2⟩
  · left
    simpa [UInt32.lt_def, BitVec.lt_def, Char.toNat] using h
  · right
    constructor
    · simpa [UInt32.lt_def, BitVec.lt_def, Char.toNat] using h1
    · simpa [UInt32.lt_def, BitVec.lt_def, Char.toNat] using h2

theorem mapCons_eq (X : Nat) (c : Char) (u : Option (List Char)) (h : X = c.toNat) :
    (fun cs => Char.ofNat X :: cs) <$> u = (fun cs => c :: cs) <$> u := by
  subst h
  rw [Char.ofNat_toNat]

theorem utf8DecodeList_cons (b : Nat) (bs : List Nat) :
    utf8DecodeList (b :: bs) =
      if b < 0x80 then (fun cs => Char.ofNat b :: cs) <$> utf8DecodeList bs
      else if b < 0xC2 then none
      else if b < 0xE0 then utf8Cont2 b bs
      else if b < 0xF0 then utf8Cont3 b bs
      else if b < 0xF5 then utf8Cont4 b bs
      else none := by
  simp [utf8DecodeList]

theorem utf8Cont2_cons (b b2 : Nat) (bs2 : List Nat) :
    utf8Cont2 b (b2 :: bs2) =
      if 0x80 ≤ b2 ∧ b2 < 0xC0 then
        (fun cs => Char.ofNat ((b - 0xC0) * 64 + (b2 - 0x80)) :: cs) <$> utf8DecodeList bs2
      else none := by
  simp [utf8Cont2]

theorem utf8Cont3_cons (b b2 b3 : Nat) (bs3 : List Nat) :
    utf8Cont3 b (b2 :: b3 :: bs3) =
      if (if b = 0xE0 then 0xA0 else 0x80) ≤ b2 ∧
          b2 < (if b = 0xED then 0xA0 else 0xC0) ∧ 0x80 ≤ b3 ∧ b3 < 0xC0 then
        (fun cs =>
          Char.ofNat ((b - 0xE0) * 4096 + (b2 - 0x80) * 64 + (b3 - 0x80)) :: cs) <$>
          utf8DecodeList bs3
      else none := by
  simp [utf8Cont3]

theorem utf8Cont4_cons (b b2 b3 b4 : Nat) (bs4 : List Nat) :
    utf8Cont4 b (b2 :: b3 :: b4 :: bs4) =
      if (if b = 0xF0 then 0x90 else 0x80) ≤ b2 ∧
          b2 < (if b = 0xF4 then 0x90 else 0xC0) ∧
          0x80 ≤ b3 ∧ b3 < 0xC0 ∧ 0x80 ≤ b4 ∧ b4 < 0xC0 then
        (fun cs =>
          Char.ofNat ((b - 0xF0) * 262144 + (b2 - 0x80) * 4096 +
            (b3 - 0x80) * 64 + (b4 - 0x80)) :: cs) <$> utf8DecodeList bs4
      else none := by
  simp [utf8Cont4]

theorem utf8DecodeList_encodeChar (c : Char) (rest : List Nat) :
    utf8DecodeList (utf8EncodeChar c.toNat ++ rest) =
      (fun cs => c :: cs) <$> utf8DecodeList rest := by
  have hv := char_toNat_valid c
  by_cases h1 : c.toNat < 0x80
  · have hsplit : utf8EncodeChar c.toNat ++ rest = c.toNat :: rest := by
      simp [utf8EncodeChar, h1]
    rw [hsplit, utf8DecodeList_cons, if_pos h1]
    exact mapCons_eq _ c _ rfl
  · by_cases h2 : c.toNat < 0x800
    · have hsplit : utf8EncodeChar c.toNat ++ rest =
          (0xC0 + c.toNat / 64) :: (0x80 + c.toNat % 64) :: rest := by
        simp [utf8EncodeChar, h1, h2]
      rw [hsplit, utf8DecodeList_cons,
        if_neg (by omega : ¬ (0xC0 + c.toNat / 64 < 0x80)),
        if_neg (by omega : ¬ (0xC0 + c.toNat / 64 < 0xC2)),
        if_pos (by omega : 0xC0 + c.toNat / 64 < 0xE0),
        utf8Cont2_cons,
        if_pos (by omega : (0x80 : Nat) ≤ 0x80 + c.toNat % 64 ∧ 0x80 + c.toNat % 64 < 0xC0)]
      exact mapCons_eq _ c _ (by omega)
    · by_cases h3 : c.toNat < 0x10000
      · have hsplit : utf8EncodeChar c.toNat ++ rest =
            (0xE0 + c.toNat / 4096) :: (0x80 + c.toNat / 64 % 64) ::
              (0x80 + c.toNat % 64) :: rest := by
          simp [utf8EncodeChar, h1, h2, h3]
        have hcond : (if (0xE0 + c.toNat / 4096 : Nat) = 0xE0 then (0xA0 : Nat) else 0x80) ≤
            0x80 + c.toNat / 64 % 64 ∧
            0x80 + c.toNat / 64 % 64 <
              (if (0xE0 + c.toNat / 4096 : Nat) = 0xED then (0xA0 : Nat) else 0xC0) ∧
            (0x80 : Nat) ≤ 0x80 + c.toNat % 64 ∧ 0x80 + c.toNat % 64 < 0xC0 := by
          refine ⟨?_, ?_, by omega, by omega⟩
          · split_ifs <;> omega
          · split_ifs <;> omega
        rw [hsplit, utf8DecodeList_cons,
          if_neg (by omega : ¬ (0xE0 + c.toNat / 4096 < 0x80)),
          if_neg (by omega : ¬ (0xE0 + c.toNat / 4096 < 0xC2)),
          if_neg (by omega : ¬ (0xE0 + c.toNat / 4096 < 0xE0)),
          if_pos (by omega : 0xE0 + c.toNat / 4096 < 0xF0),
          utf8Cont3_cons, if_pos hcond]
        exact mapCons_eq _ c _ (by omega)
      · have hsplit : utf8EncodeChar c.toNat ++ rest =
            (0xF0 + c.toNat / 262144) :: (0x80 + c.toNat / 4096 % 64) ::
              (0x80 + c.toNat / 64 % 64) :: (0x80 + c.toNat % 64) :: rest := by
          simp [utf8EncodeChar, h1, h2, h3]
        have hcond : (if (0xF0 + c.toNat / 262144 : Nat) = 0xF0 then (0x90 : Nat) else 0x80) ≤
            0x80 + c.toNat / 4096 % 64 ∧
            0x80 + c.toNat / 4096 % 64 <
              (if (0xF0 + c.toNat / 262144 : Nat) = 0xF4 then (0x90 : Nat) else 0xC0) ∧
            (0x80 : Nat) ≤ 0x80 + c.toNat / 64 % 64 ∧ 0x80 + c.toNat / 64 % 64 < 0xC0 ∧
            (0x80 : Nat) ≤ 0x80 + c.toNat % 64 ∧ 0x80 + c.toNat % 64 < 0xC0 := by
          refine ⟨?_, ?_, by omega, by omega, by omega, by omega⟩
          · split_ifs <;> omega
          · split_ifs <;> omega
        rw [hsplit, utf8DecodeList_cons,
          if_neg (by omega : ¬ (0xF0 + c.toNat / 262144 < 0x80)),
          if_neg (by omega : ¬ (0xF0 + c.toNat / 262144 < 0xC2)),
          if_neg (by omega : ¬ (0xF0 + c.toNat / 262144 < 0xE0)),
          if_neg (by omega : ¬ (0xF0 + c.toNat / 262144 < 0xF0)),
          if_pos (by omega : 0xF0 + c.toNat / 262144 < 0xF5),
          utf8Cont4_cons, if_pos hcond]
        exact mapCons_eq _ c _ (by omega)

theorem utf8DecodeList_encode (cs : List Char) :
    utf8DecodeList (cs.flatMap (fun c => utf8EncodeChar c.toNat)) = some cs := by
  induction cs with
  | nil => rfl
  | cons c rest ih =>
    have hstep : (c :: rest).flatMap (fun c => utf8EncodeChar c.toNat) =
        utf8EncodeChar c.toNat ++ rest.flatMap (fun c => utf8EncodeChar c.toNat) := by
      simp
    rw [hstep, utf8DecodeList_encodeChar, ih]
    rfl

theorem utf8Encode_decode (s : String) : utf8DecodeList (utf8Encode s) = some s.toList :=
  utf8DecodeList_encode s.toList

theorem hexVal_hexDigitChar : ∀ n < 16, hexVal (hexDigitChar n) = some n := by decide

theorem hexDigitChar_ne_space : ∀ n < 16, hexDigitChar n ≠ ' ' := by decide

theorem hexDigitChar_ne_x : ∀ n < 16, hexDigitChar n ≠ 'x' := by decide

theorem bytesToHex_toList (b : Nat) (rest : List Nat) :
    (bytesToHex (b :: rest)).toList =
      hexDigitChar (b / 16) :: hexDigitChar (b % 16) :: (bytesToHex rest).toList := by
  simp [bytesToHex]
  rfl

theorem fromhex_cons_cons (c1 c2 : Char) (rest : List Char) (h : c1 ≠ ' ') :
    fromhex (c1 :: c2 :: rest) =
      (hexVal c1).bind (fun hi =>
        (hexVal c2).bind (fun lo =>
          (fun bs => (hi * 16 + lo) :: bs) <$> fromhex rest)) := by
  simp [fromhex, h]

theorem fromhex_bytesToHex (bs : List Nat) (h : ∀ b ∈ bs, b < 256) :
    fromhex (bytesToHex bs).toList = some bs := by
  induction bs with
  | nil => rfl
  | cons b rest ih =>
    have hb : b < 256 := h b (by simp)
    rw [bytesToHex_toList,
      fromhex_cons_cons _ _ _ (hexDigitChar_ne_space _ (by omega)),
      hexVal_hexDigitChar _ (by omega), hexVal_hexDigitChar _ (by omega),
      ih (fun x hx => h x (by simp [hx]))]
    simp
    omega

theorem bytesToHex_take2 (bs : List Nat) : (bytesToHex bs).toList.take 2 ≠ ['0', 'x'] := by
  cases bs with
  | nil => decide
  | cons b rest =>
    rw [bytesToHex_toList]
    intro hEq
    simp [List.take] at hEq
    exact hexDigitChar_ne_x (b % 16) (by omega) hEq.2

theorem strippedHex_bytesToHex (bs : List Nat) :
    strippedHex (bytesToHex bs) = (bytesToHex bs).toList := by
  unfold strippedHex
  rw [if_neg (bytesToHex_take2 bs)]

theorem strippedHex_0x (h : String) : strippedHex ("0x" ++ h) = h.toList := by
  unfold strippedHex
  have hsplit : ("0x" ++ h).toList = '0' :: 'x' :: h.toList := rfl
  rw [hsplit]
  simp

theorem utf8EncodeChar_lt_256 (c : Char) : ∀ b ∈ utf8EncodeChar c.toNat, b < 256 := by
  have hv := char_toNat_valid c
  unfold utf8EncodeChar
  split_ifs with h1 h2 h3 <;> intro b hb <;> simp at hb <;> omega

theorem utf8Encode_lt_256 (s : String) : ∀ b ∈ utf8Encode s, b < 256 := by
  intro b hb
  unfold utf8Encode at hb
  rw [List.mem_flatMap] at hb
  obtain ⟨c, _, hc⟩ := hb
  exact utf8EncodeChar_lt_256 c b hc

/-- C5: hex round-trip — for every UTF-8 text `s`, `decode_hex` applied to
the (lowercase) hexadecimal encoding of the UTF-8 bytes of `s`, with or
without a leading `0x` prefix, returns `s` itself. -/
theorem claim_C5_hex_roundtrip (s : String) :
    decode_hex (bytesToHex (utf8Encode s)) = s ∧
    decode_hex ("0x" ++ bytesToHex (utf8Encode s)) = s := by
  have h1 : fromhex (bytesToHex (utf8Encode s)).data = some (utf8Encode s) :=
    fromhex_bytesToHex _ (utf8Encode_lt_256 s)
  have hAs : s.data.asString = s := rfl
  constructor
  · simp [decode_hex, strippedHex_bytesToHex, h1, utf8Encode_decode, hAs]
  · simp [decode_hex, strippedHex_0x, h1, utf8Encode_decode, hAs]

theorem fromhex_none_of_bad (l : List Char) (c : Char) (hc : c ∈ l) (hcs : c ≠ ' ')
    (hbad : hexVal c = none) : fromhex l = none := by
  induction l using fromhex.induct with
  | case1 => cases hc
  | case2 rest ih =>
    rcases List.mem_cons.mp hc with h | h
    · exact absurd h hcs
    · simpa [fromhex] using ih h
  | case3 c1 c2 rest hne ih =>
    rcases List.mem_cons.mp hc with h | h
    · subst h
      simp [fromhex_cons_cons _ _ _ hne, hbad]
    · rcases List.mem_cons.mp h with h2 | h2
      · subst h2
        rw [fromhex_cons_cons _ _ _ hne]
        cases hv1 : hexVal c1 <;> simp [hbad]
      · rw [fromhex_cons_cons _ _ _ hne]
        cases hv1 : hexVal c1 <;> cases hv2 : hexVal c2 <;> simp [ih h2]
  | case4 c1 hne =>
    rcases List.mem_cons.mp hc with h | h
    · subst h
      simp [fromhex, hne]
    · cases h

theorem fromhex_none_of_odd (l : List Char)
    (hodd : (l.filter (fun c => c != ' ')).length % 2 = 1) : fromhex l = none := by
  induction l using fromhex.induct with
  | case1 => simp at hodd
  | case2 rest ih =>
    simp at hodd
    simpa [fromhex] using ih (by simpa using hodd)
  | case3 c1 c2 rest hne ih =>
    by_cases h2 : c2 = ' '
    · subst h2
      rw [fromhex_cons_cons _ _ _ hne]
      cases hv1 : hexVal c1 <;> simp [hexVal]
    · have hb1 : (c1 != ' ') = true := by simpa using hne
      have hb2 : (c2 != ' ') = true := by simpa using h2
      have hlen : ((c1 :: c2 :: rest).filter (fun c => c != ' ')).length =
          2 + ((rest.filter (fun c => c != ' ')).length) := by
        simp [List.filter_cons, hb1, hb2]
        omega
      rw [fromhex_cons_cons _ _ _ hne]
      cases hv1 : hexVal c1 <;> cases hv2 : hexVal c2 <;>
        simp [ih (by omega)]
  | case4 c1 hne =>
    simp [fromhex, hne]

/-- C6: malformed hex never raises and yields the fixed placeholder — for
every input whose stripped characters contain a non-hex non-space
character, or hold an odd number of non-space digits, or denote bytes that
are not valid UTF-8, `decode_hex` returns `[Unable to decode hex]`.
(Totality — "never raises an exception" — is inherent: `decode_hex` is a
total function.) -/
theorem claim_C6_decode_hex_failure (s : String) :
    ((∃ c ∈ strippedHex s, c ≠ ' ' ∧ hexVal c = none) →
      decode_hex s = "[Unable to decode hex]") ∧
    (((strippedHex s).filter (fun c => c != ' ')).length % 2 = 1 →
      decode_hex s = "[Unable to decode hex]") ∧
    (∀ bs, fromhex (strippedHex s) = some bs → utf8DecodeList bs = none →
      decode_hex s = "[Unable to decode hex]") := by
  refine ⟨?_, ?_, ?_⟩
  · rintro ⟨c, hc, hcs, hbad⟩
    simp [decode_hex, fromhex_none_of_bad _ c hc hcs hbad]
  · intro h
    simp [decode_hex, fromhex_none_of_odd _ h]
  · intro bs h1 h2
    simp [decode_hex, h1, h2]

/-- C6 witness: a malformed digit (`"zz"`), an odd digit count
(`"0xabc"`), and a non-UTF-8 byte (`"ff"`, the lone byte `0xFF`) all hit
the placeholder. -/
theorem claim_C6_witness :
    decode_hex "zz" = "[Unable to decode hex]" ∧
    decode_hex "0xabc" = "[Unable to decode hex]" ∧
    decode_hex "ff" = "[Unable to decode hex]" :=
  ⟨(claim_C6_decode_hex_failure "zz").1 ⟨'z', by decide, by decide, by decide⟩,
   (claim_C6_decode_hex_failure "0xabc").2.1 (by decide),
   (claim_C6_decode_hex_failure "ff").2.2 [255] rfl rfl⟩

theorem walkPath_of_present (d : Json) (ks : List String) (w : Json)
    (h : PresentPath d ks w) : walkPath d ks = w := by
  induction h with
  | nil => rfl
  | cons es k v ks w hv _ ih => simp [walkPath, hv, ih]

theorem walkPath_of_absent (d : Json) (ks : List String)
    (h : ¬ ∃ w, PresentPath d ks w) : walkPath d ks = Json.null := by
  induction ks generalizing d with
  | nil => exact absurd ⟨d, PresentPath.nil d⟩ h
  | cons k ks ih =>
    cases d with
    | null => rfl
    | bool b => rfl
    | num x => rfl
    | str x => rfl
    | arr xs => rfl
    | obj es =>
      cases hv : objGet? es k with
      | none => simp [walkPath, hv]
      | some v =>
        simp only [walkPath, hv]
        refine ih v ?_
        rintro ⟨w, hw⟩
        exact h ⟨w, PresentPath.cons es k v ks w hv hw⟩

/-- C7: the path extractor is total and characterised by key presence —
when every dot-separated segment is present (each level a mapping
containing the key), it returns the stored value; the moment a segment is
missing or the current value is not a mapping, it returns the absent
result (`None`, modelled `Json.null`). Totality — "never raises" — is
inherent: `extract_nested_value` is a total function. -/
theorem claim_C7_extractor_total (d : Json) (path : String) :
    (∀ w, PresentPath d (splitCh '.' path) w → extract_nested_value d path = w) ∧
    ((¬ ∃ w, PresentPath d (splitCh '.' path) w) → extract_nested_value d path = Json.null) :=
  ⟨fun _ h => walkPath_of_present _ _ _ h, fun h => walkPath_of_absent _ _ h⟩

/-- C7 witness: a fully-present two-segment path resolves; a path whose
final key is absent yields the absent result. -/
theorem claim_C7_witness :
    extract_nested_value (Json.obj [("a", Json.obj [("b", Json.str "v")])]) "a.b" =
      Json.str "v" ∧
    extract_nested_value (Json.obj [("a", Json.obj [("b", Json.str "v")])]) "a.z" =
      Json.null := by
  constructor
  · refine (claim_C7_extractor_total _ "a.b").1 _ ?_
    exact PresentPath.cons _ "a" _ _ _ rfl (PresentPath.cons _ "b" _ _ _ rfl (PresentPath.nil _))
  · refine (claim_C7_extractor_total _ "a.z").2 ?_
    rintro ⟨w, hw⟩
    have hks : splitCh '.' "a.z" = ["a", "z"] := rfl
    rw [hks] at hw
    cases hw with
    | cons es k v ks w hv htail =>
      cases hv
      cases htail with
      | cons es2 k2 v2 ks2 w2 hv2 htail2 => exact Option.noConfusion hv2

/-- C3 counterexample: against `{"value": [["aa"]]}` the path `value.0.0`
— whose numeric segments would index the nested sequences — returns the
absent result, not the addressed element `"aa"`: the extractor only
descends through mappings (`isinstance(current, dict)`), never through
sequences. -/
theorem claim_C3_counterexample :
    extract_nested_value (Json.obj [("value", Json.arr [Json.arr [Json.str "aa"]])])
      "value.0.0" = Json.null ∧ Json.null ≠ Json.str "aa" :=
  ⟨rfl, fun h => Json.noConfusion h⟩

/-- C3 (amended): the extractor resolves dotted paths through nested
mappings only; any segment whose current value is a sequence (or any
non-mapping) yields the absent result rather than indexing into it, while
mapping segments still resolve normally. -/
theorem claim_C3_amended :
    (∀ (xs : List Json) (k : String) (ks : List String),
      walkPath (Json.arr xs) (k :: ks) = Json.null) ∧
    extract_nested_value (Json.obj [("value", Json.arr [Json.arr [Json.str "aa"]])])
      "value" = Json.arr [Json.arr [Json.str "aa"]] :=
  ⟨fun _ _ _ => rfl, rfl⟩

/-- C10: a key explicitly bound to JSON `null` is indistinguishable from a
missing key — both make the extractor return Python `None` (`Json.null`),
and that value is falsy, so callers branching on the result treat the two
cases identically. -/
theorem claim_C10_null_indistinguishable (es es2 : List (String × Json)) (k : String)
    (hk : splitCh '.' k = [k]) (h1 : objGet? es k = some Json.null)
    (h2 : objGet? es2 k = none) :
    extract_nested_value (Json.obj es) k = Json.null ∧
    extract_nested_value (Json.obj es2) k = Json.null ∧
    truthy Json.null = false := by
  refine ⟨?_, ?_, rfl⟩
  · unfold extract_nested_value
    rw [hk]
    simp [walkPath, h1]
  · unfold extract_nested_value
    rw [hk]
    simp [walkPath, h2]

/-- C10 witness: `{"a": null}` and `{}` give the same absent result for
key `a`. -/
theorem claim_C10_witness :
    extract_nested_value (Json.obj [("a", Json.null)]) "a" = Json.null ∧
    extract_nested_value (Json.obj []) "a" = Json.null ∧
    truthy Json.null = false :=
  claim_C10_null_indistinguishable [("a", Json.null)] [] "a" rfl rfl rfl

theorem bindOk {α β : Type} (a : α) (f : α → Except Exn β) :
    (Except.ok a : Except Exn α) >>= f = f a := rfl

theorem objAny_eq_isSome (es : List (String × Json)) (k : String) :
    es.any (fun p => p.1 = k) = (objGet? es k).isSome := by
  induction es with
  | nil => rfl
  | cons e rest ih =>
    by_cases h : e.1 = k
    · simp [objGet?, List.find?_cons, h]
    · simp only [List.any_cons, objGet?, List.find?_cons] at ih ⊢
      simp [h, ih]

theorem renderMessages_cons_ok (msg : Json) (rest : List Json) (acc : String)
    (h : msgOk msg = true) :
    renderMessages (msg :: rest) acc = renderMessages rest (acc ++ msgBlock msg) := by
  cases msg with
  | obj mes =>
    cases hr : objGet? mes "role" with
    | none =>
      simp [renderMessages, pyGet, hr, formatRole, msgBlock, msgRole, msgContent,
        String.append_assoc, bindOk]
    | some r =>
      cases r with
      | str s =>
        simp [renderMessages, pyGet, hr, formatRole, msgBlock, msgRole, msgContent,
          String.append_assoc, bindOk]
      | null => simp [msgOk, hr] at h
      | bool b => simp [msgOk, hr] at h
      | num x => simp [msgOk, hr] at h
      | arr xs => simp [msgOk, hr] at h
      | obj es2 => simp [msgOk, hr] at h
  | null => simp [msgOk] at h
  | bool b => simp [msgOk] at h
  | num x => simp [msgOk] at h
  | str s => simp [msgOk] at h
  | arr xs => simp [msgOk] at h

theorem renderMessages_ok (msgs : List Json) (acc : String)
    (h : ∀ m ∈ msgs, msgOk m = true) :
    renderMessages msgs acc = .ok (acc ++ strConcat (msgs.map msgBlock)) := by
  induction msgs generalizing acc with
  | nil => simp [renderMessages, strConcat]
  | cons m rest ih =>
    rw [renderMessages_cons_ok m rest acc (h m (by simp)),
      ih _ (fun x hx => h x (by simp [hx]))]
    simp [strConcat, String.append_assoc]

theorem prbCore_chat (es : List (String × Json)) (msgs : List Json)
    (hm : objGet? es "messages" = some (.arr msgs))
    (hok : ∀ m ∈ msgs, msgOk m = true) :
    prbCore (.obj es) =
      .ok (chatHeader es ++ "\n----- Messages -----\n\n" ++ strConcat (msgs.map msgBlock)) := by
  have hany : (es.any (fun p => p.1 = "messages")) = true := by
    rw [objAny_eq_isSome, hm]
    rfl
  cases ht : objGet? es "temperature" with
  | none =>
    have htany : (es.any (fun p => p.1 = "temperature")) = false := by
      rw [objAny_eq_isSome, ht]
      rfl
    simp [prbCore, pyIn, hany, pySubscript, hm, pyGet, htany, chatHeader, ht,
      renderMessages_ok msgs _ hok, String.append_assoc, bindOk]
  | some t =>
    have htany : (es.any (fun p => p.1 = "temperature")) = true := by
      rw [objAny_eq_isSome, ht]
      rfl
    simp [prbCore, pyIn, hany, pySubscript, hm, pyGet, htany, chatHeader, ht,
      renderMessages_ok msgs _ hok, String.append_assoc, bindOk]

theorem strConcat_split (l : List String) (x : String) (hx : x ∈ l) :
    ∃ p q, strConcat l = p ++ x ++ q := by
  induction l with
  | nil => cases hx
  | cons a rest ih =>
    rcases List.mem_cons.mp hx with h | h
    · subst h
      exact ⟨"", strConcat rest, by simp [strConcat, String.append_assoc]⟩
    · obtain ⟨p, q, hpq⟩ := ih h
      exact ⟨a ++ p, q, by simp [strConcat, hpq, String.append_assoc]⟩

/-- C4 (amended): for every request body that parses to a dict with a
`messages` list whose elements are dicts with string (or absent) roles,
the rendered body begins with the model line, and contains, for every
message, its `[ROLE]\ncontent\n\n` block (`msgBlock`, with the role
capitalized and `system` upper-cased); and on the spec's scenario body
the output is exactly the `Model`/`Temperature`/`[SYSTEM]` text. The
original claim's unrestricted form fails when a message is not a dict
(see the counterexample). -/
theorem claim_C4_chat_body (body : String) (es : List (String × Json)) (msgs : List Json)
    (hparse : json_loads body = some (.obj es))
    (hm : objGet? es "messages" = some (.arr msgs))
    (hok : ∀ m ∈ msgs, msgOk m = true) :
    (∃ rest, process_request_body (.str body) =
      "Model: " ++ pyStr ((objGet? es "model").getD (.str "Not specified")) ++ "\n" ++ rest) ∧
    (∀ m ∈ msgs, ∃ p q, process_request_body (.str body) = p ++ msgBlock m ++ q) ∧
    process_request_body (.str c4Body) =
      "Model: gpt-4\nTemperature: 0.7\n\n----- Messages -----\n\n[SYSTEM]\nbe nice\n\n" := by
  have hout : process_request_body (.str body) =
      chatHeader es ++ "\n----- Messages -----\n\n" ++ strConcat (msgs.map msgBlock) := by
    simp [process_request_body, hparse, prbCore_chat es msgs hm hok]
  refine ⟨?_, ?_, rfl⟩
  · rw [hout]
    cases ht : objGet? es "temperature" with
    | none =>
      exact ⟨"\n----- Messages -----\n\n" ++ strConcat (msgs.map msgBlock),
        by simp [chatHeader, ht, ← String.append_assoc]⟩
    | some t =>
      exact ⟨"Temperature: " ++ pyStr t ++ "\n" ++
          "\n----- Messages -----\n\n" ++ strConcat (msgs.map msgBlock),
        by simp [chatHeader, ht, ← String.append_assoc]⟩
  · intro m hmem
    obtain ⟨p, q, hpq⟩ := strConcat_split (msgs.map msgBlock) (msgBlock m)
      (List.mem_map_of_mem _ hmem)
    refine ⟨chatHeader es ++ "\n----- Messages -----\n\n" ++ p, q, ?_⟩
    rw [hout, hpq]
    simp [String.append_assoc]

/-- C4 witness: the spec's scenario body instantiates the amended claim. -/
theorem claim_C4_witness :
    (∃ rest, process_request_body (.str c4Body) =
      "Model: " ++ pyStr ((objGet? c4Es "model").getD (.str "Not specified")) ++ "\n" ++ rest) ∧
    (∀ m ∈ [c4Msg], ∃ p q, process_request_body (.str c4Body) = p ++ msgBlock m ++ q) ∧
    process_request_body (.str c4Body) =
      "Model: gpt-4\nTemperature: 0.7\n\n----- Messages -----\n\n[SYSTEM]\nbe nice\n\n" :=
  claim_C4_chat_body c4Body c4Es [c4Msg] rfl rfl (by
    intro m hm
    rw [List.mem_singleton] at hm
    subst hm
    rfl)

/-- C4 counterexample: the body `{"model":"gpt-4","messages":[42]}`
contains a `messages` list, yet the output is the caught-exception text
(the integer message has no `.get`), which does not include the model
name — refuting the unrestricted claim. -/
theorem claim_C4_counterexample :
    process_request_body (.str "\x7b\"model\":\"gpt-4\",\"messages\":[42]\x7d") =
      "Error processing request body: \x27int\x27 object has no attribute \x27get\x27" ∧
    hasSub "Model".toList
      (process_request_body (.str "\x7b\"model\":\"gpt-4\",\"messages\":[42]\x7d")).toList =
      false :=
  ⟨rfl, rfl⟩

/-- C8: for every body string that is not valid JSON, the body decoder
returns the at-most-200-character prefix followed by the truncation
notice (and, being a total function, never raises). -/
theorem claim_C8_truncation (body : String) (h : json_loads body = none) :
    process_request_body (.str body) =
      List.asString (body.toList.take 200) ++
        "...\n(Request body truncated for readability)" := by
  simp [process_request_body, h]

/-- C8 witness: a short non-JSON body. -/
theorem claim_C8_witness :
    process_request_body (.str "hello world") =
      "hello world...\n(Request body truncated for readability)" :=
  (claim_C8_truncation "hello world" rfl).trans rfl

/-- C1: end-to-end response decoding — with no identifier, when the
"latest" query returns one object whose
`value.response.value.vec.value[0][0]` is `c1Hex` (a hex string decoding
to the OpenAI response JSON text wrapped once more in JSON-string
encoding), the report succeeds (exit 0) and its `AI Response Content`
section prints exactly `hello` (the line following the section header). -/
theorem claim_C1_response_decoding :
    decode_hex c1Hex = c1Outer ∧
    json_loads c1Outer = some (.str c1Inner) ∧
    run_prog none (.succeeds c1Stdout) =
      (["Fetching the latest Oracle request object...",
        "\n===== Oracle Request Object =====\n",
        "ID: 0xobj1",
        "Type: 0xf::oracles::Request",
        "Owner: rooch1q",
        "Created: <local-time of 1700000000000 ms>",
        "Updated: <local-time of 1700000000001 ms>",
        "\n===== Request Details =====\n",
        "\n===== HTTP Request =====\n",
        "\n===== Response =====\n",
        "Status: 200",
        "\nResponse Content:",
        "\x7b\n  \"choices\": [\n    \x7b\n      \"message\": \x7b\n        \"content\": \"hello\"\n      \x7d\n    \x7d\n  ]\n\x7d",
        "\n===== AI Response Content =====\n",
        "hello",
        "\n===== End of Oracle Request Details =====\n"], 0) :=
  ⟨rfl, rfl, rfl⟩

/-- C2 counterexample: an object lacking only the `id` field. The report
does NOT skip that line and continue: the `obj['id']` subscript raises
`KeyError`, `main` catches it, and the run aborts with exit code 1 having
printed none of the later sections — refuting "absence of any underlying
field … does not abort the report". -/
theorem claim_C2_counterexample :
    run_prog none (.succeeds c2Stdout) =
      (["Fetching the latest Oracle request object...",
        "\n===== Oracle Request Object =====\n",
        "Error: \x27id\x27"], 1) ∧
    "\n===== Request Details =====\n" ∉ (run_prog none (.succeeds c2Stdout)).1 ∧
    "\n===== Response =====\n" ∉ (run_prog none (.succeeds c2Stdout)).1 :=
  ⟨rfl, by decide, by decide⟩

/-- C2 (amended): the five basic object fields (`id`, `object_type`,
`owner`, `created_at`, `updated_at`) are mandatory — their absence aborts
the report via an uncaught `KeyError` (see the counterexample) — while
every other section's data is optional: for any values of the basic
fields, an object with nothing else (no `decoded_value`, so no amount,
requester, oracle, params, callback, status or response data) still
produces the complete report with all fixed section headers, ending
normally. -/
theorem claim_C2_optional_sections (idv tyv ownv : Json) :
    analyze_oracle_request (basicData idv tyv ownv) [] =
      (["\n===== Oracle Request Object =====\n",
        "ID: " ++ pyStr idv,
        "Type: " ++ pyStr tyv,
        "Owner: " ++ pyStr ownv,
        "Created: <local-time of 0 ms>",
        "Updated: <local-time of 0 ms>",
        "\n===== Request Details =====\n",
        "\n===== HTTP Request =====\n",
        "\n===== Response =====\n",
        "\nNo response content available",
        "\n===== End of Oracle Request Details =====\n"], Except.ok ()) := rfl

/-- C9: fatal fetch failures — a supplied identifier whose lookup returns
`{"data":[]}` exits 1 printing the missing-object diagnostic; a failing
external process, non-JSON process output, and an empty "latest" result
each print a diagnostic and exit 1. -/
theorem claim_C9_fatal_errors :
    run_prog (some "0xABC") (.succeeds "\x7b\"data\":[]\x7d") =
      (["Fetching object data for ID: 0xABC...", "Error: No object data found"], 1) ∧
    run_prog (some "0xABC") (.fails "Command returned non-zero exit status 1." "boom") =
      (["Fetching object data for ID: 0xABC...",
        "Error executing rooch command: Command returned non-zero exit status 1.",
        "stderr: boom"], 1) ∧
    run_prog (some "0xABC") (.succeeds "not json") =
      (["Fetching object data for ID: 0xABC...",
        "Error parsing response from rooch command: Expecting value: line 1 column 1 (char 0)"],
       1) ∧
    run_prog none (.succeeds "\x7b\"data\":[]\x7d") =
      (["Fetching the latest Oracle request object...",
        "No Oracle request objects found."], 1) :=
  ⟨rfl, rfl, rfl, rfl⟩

end DecodeOracle
